import Mathlib

/-!
Verification development for the SRW dispatch core of the elliptics repository
(file src/srw/srw.cpp).  The C++ code is shallowly embedded: the Upstream
reply channel (dnet_upstream_t), the per-app registry entry (dnet_app_t), and
the dispatcher (srw::process) are translated into executable Lean functions
over explicit state.  External collaborators (the cocaine runtime, msgpack
decoding, the JSON writer, the network send primitives) are modelled as
oracle inputs or recorded output events, exactly at the call boundary the
C++ code uses.
-/

namespace SrwModel

/-! ## Association lists

std::map is modelled as an association list with the operations the source
uses: lookup (find), insert (no-op when the key is present), operator-style
set (insert-or-assign), and erase of the sole matching entry. -/

def alistGet {α β : Type} [DecidableEq α] : List (α × β) → α → Option β
  | [], _ => none
  | (k0, v0) :: rest, k => if k0 = k then some v0 else alistGet rest k

def alistInsert {α β : Type} [DecidableEq α] : List (α × β) → α → β → List (α × β)
  | [], k, v => [(k, v)]
  | (k0, v0) :: rest, k, v =>
    if k0 = k then (k0, v0) :: rest else (k0, v0) :: alistInsert rest k v

def alistSet {α β : Type} [DecidableEq α] : List (α × β) → α → β → List (α × β)
  | [], k, v => [(k, v)]
  | (k0, v0) :: rest, k, v =>
    if k0 = k then (k0, v) :: rest else (k0, v0) :: alistSet rest k v

def alistErase {α β : Type} [DecidableEq α] : List (α × β) → α → List (α × β)
  | [], _ => []
  | (k0, v0) :: rest, k => if k0 = k then rest else (k0, v0) :: alistErase rest k

theorem alistGet_set_self {α β : Type} [DecidableEq α]
    (m : List (α × β)) (k : α) (v : β) : alistGet (alistSet m k v) k = some v := by
  induction m with
  | nil => simp [alistSet, alistGet]
  | cons p rest ih =>
    obtain ⟨k0, v0⟩ := p
    by_cases h : k0 = k <;> simp [alistSet, alistGet, h, ih]

theorem alistGet_set_other {α β : Type} [DecidableEq α]
    (m : List (α × β)) (k k' : α) (v : β) (h : k' ≠ k) :
    alistGet (alistSet m k v) k' = alistGet m k' := by
  induction m with
  | nil => simp [alistSet, alistGet, Ne.symm h]
  | cons p rest ih =>
    obtain ⟨k0, v0⟩ := p
    by_cases h0 : k0 = k
    · subst h0
      simp [alistSet, alistGet, Ne.symm h]
    · by_cases h1 : k0 = k' <;> simp [alistSet, alistGet, h0, h1, ih, h]

theorem alistGet_insert_self {α β : Type} [DecidableEq α]
    (m : List (α × β)) (k : α) (v : β) (h : alistGet m k = none) :
    alistGet (alistInsert m k v) k = some v := by
  induction m with
  | nil => simp [alistInsert, alistGet]
  | cons p rest ih =>
    obtain ⟨k0, v0⟩ := p
    by_cases h0 : k0 = k
    · simp [alistGet, h0] at h
    · simp [alistGet, h0] at h
      simp [alistInsert, alistGet, h0, ih h]

theorem alistGet_insert_other {α β : Type} [DecidableEq α]
    (m : List (α × β)) (k k' : α) (v : β) (h : k' ≠ k) :
    alistGet (alistInsert m k v) k' = alistGet m k' := by
  induction m with
  | nil => simp [alistInsert, alistGet, Ne.symm h]
  | cons p rest ih =>
    obtain ⟨k0, v0⟩ := p
    by_cases h0 : k0 = k
    · subst h0
      simp [alistInsert, alistGet]
    · by_cases h1 : k0 = k' <;> simp [alistInsert, alistGet, h0, h1, ih, h]

/-! ## Wire data: the SPH exec header and reply frames

Modelled from the spec: the field layout of `struct sph` (elliptics/srw.h is
not in the tree); the spec lists the fields the core consumes: data_size,
event_size, flags (bit 0 = SRC_BLOCK, bit 1 = REPLY, bit 2 = FINISH),
src_key, src, addr.  Byte strings are `List Char`, raw id/address bytes are
`List Nat`. -/

structure Sph where
  data_size : Nat
  event_size : Nat
  flags : Nat
  src_key : Int
  src : List Nat
  addr : List Nat
deriving Repr, DecidableEq

def DNET_SPH_FLAGS_SRC_BLOCK : Nat := 1
def DNET_SPH_FLAGS_REPLY : Nat := 2
def DNET_SPH_FLAGS_FINISH : Nat := 4

def hasFlag (flags mask : Nat) : Bool := flags &&& mask != 0

/-- Error codes used by the dispatcher (values of errno constants; the code
returns their negations). -/
def EINVAL : Int := 22
def ENOENT : Int := 2
def EXFULL : Int := 54

/-- A reply frame as assembled by the core: a full SPH header followed by the
event name bytes and the data payload. -/
structure Frame where
  hdr : Sph
  event : List Char
  data : List Char
deriving Repr, DecidableEq

/-- One client-visible send performed through the node's primitives:
`frame completed f` is dnet_send_reply with more-to-follow = !completed;
`ack err` is dnet_send_ack carrying the stored error code. -/
inductive Emission where
  | frame (completed : Bool) (f : Frame)
  | ack (err : Int)
deriving Repr, DecidableEq

def isTerminal : Emission → Bool
  | .frame c _ => c
  | .ack _ => true

def termCount (es : List Emission) : Nat := (es.filter isTerminal).length

theorem termCount_append (a b : List Emission) :
    termCount (a ++ b) = termCount a + termCount b := by
  simp [termCount, List.filter_append]

/-! ## The Upstream channel (dnet_upstream_t) -/

/-- The inbound command header fields the upstream copies (dnet_cmd): the id
bytes and the NEED_ACK flag bit of cmd->flags. -/
structure Cmd where
  id : List Nat
  need_ack : Bool
deriving Repr, DecidableEq

/-- The immutable capture performed by the dnet_upstream_t constructor via
sph_wrapper: a copy of the inbound SPH and its event-name bytes, plus the
by-value copy of the command header. -/
structure UpCfg where
  sph : Sph
  event : List Char
  cmd : Cmd
deriving Repr, DecidableEq

/-- The mutable fields of dnet_upstream_t: the one-way completion latch, the
stored error code, and the NEED_ACK bit of the retained m_cmd copy. -/
structure UpstreamState where
  m_completed : Bool
  m_error : Int
  m_need_ack : Bool
deriving Repr, DecidableEq

def initUpstream (cfg : UpCfg) : UpstreamState :=
  { m_completed := false, m_error := 0, m_need_ack := cfg.cmd.need_ack }

def srcBlock (cfg : UpCfg) : Bool := hasFlag cfg.sph.flags DNET_SPH_FLAGS_SRC_BLOCK

/-- dnet_upstream_t::reply.  Under the latch: return immediately when already
completed, otherwise record the passed completion flag and, when SRC_BLOCK
was captured or a non-empty payload is present, send either a data frame
(more-to-follow iff not completed) or, for a completed empty call, an ack
carrying the stored error code.  A payload of `some f` stands for
(reply && size) being true. -/
def replyUp (cfg : UpCfg) (st : UpstreamState) (completed : Bool) (payload : Option Frame) :
    UpstreamState × List Emission :=
  if st.m_completed then (st, [])
  else
    let st1 := { st with m_completed := completed }
    if srcBlock cfg || payload.isSome then
      match payload with
      | some f =>
        ((if completed then { st1 with m_need_ack := false } else st1),
         [Emission.frame completed f])
      | none =>
        if completed then ({ st1 with m_need_ack := true }, [Emission.ack st.m_error])
        else (st1, [])
    else (st1, [])

/-- Outcome of msgpack::unpack on a worker chunk, at the boundary the code
inspects: unpack failure, a successfully decoded non-RAW object, or a decoded
top-level binary string with the given bytes. -/
inductive DecodeResult where
  | failUnpack
  | notRaw
  | raw (payload : List Char)
deriving Repr, DecidableEq

/-- The reply frame built by dnet_upstream_t::write for a valid chunk: the
captured SPH copied verbatim, followed by the captured event name and the raw
payload, with event_size and data_size patched to the new lengths. -/
def mkWriteFrame (cfg : UpCfg) (payload : List Char) : Frame :=
  { hdr := { cfg.sph with event_size := cfg.event.length, data_size := payload.length },
    event := cfg.event,
    data := payload }

/-- dnet_upstream_t::write: a chunk that fails to unpack or is not a binary
string takes the error path reply(true, NULL, 0); a valid chunk is reframed
and sent through reply(false, data, size). -/
def writeUp (cfg : UpCfg) (st : UpstreamState) (dec : DecodeResult) :
    UpstreamState × List Emission :=
  match dec with
  | .failUnpack => replyUp cfg st true none
  | .notRaw => replyUp cfg st true none
  | .raw p => replyUp cfg st false (some (mkWriteFrame cfg p))

/-- dnet_upstream_t::close: reply(true, NULL, 0); the deleter call is
modelled at the dispatcher level (complete_job). -/
def closeUp (cfg : UpCfg) (st : UpstreamState) : UpstreamState × List Emission :=
  replyUp cfg st true none

/-- dnet_upstream_t::error: records the negated code, emits nothing. -/
def errorUp (st : UpstreamState) (code : Int) : UpstreamState × List Emission :=
  ({ st with m_error := -code }, [])

/-- dnet_upstream_t destructor: reply(true, NULL, 0). -/
def dtorUp (cfg : UpCfg) (st : UpstreamState) : UpstreamState × List Emission :=
  replyUp cfg st true none

/-- One operation applied to an Upstream. -/
inductive UpOp where
  | write (dec : DecodeResult)
  | close
  | error (code : Int)
  | reply (completed : Bool) (payload : Option Frame)
  | dtor
deriving Repr, DecidableEq

def stepUp (cfg : UpCfg) (st : UpstreamState) : UpOp → UpstreamState × List Emission
  | .write dec => writeUp cfg st dec
  | .close => closeUp cfg st
  | .error c => errorUp st c
  | .reply c p => replyUp cfg st c p
  | .dtor => dtorUp cfg st

def runUp (cfg : UpCfg) (st : UpstreamState) : List UpOp → UpstreamState × List Emission
  | [] => (st, [])
  | op :: ops =>
    let r1 := stepUp cfg st op
    let r2 := runUp cfg r1.1 ops
    (r2.1, r1.2 ++ r2.2)

/-! ## Per-app counters and the registry entry (dnet_app_t) -/

structure srw_counters where
  blocked : Nat
  nonblocked : Nat
  reply : Nat
deriving Repr, DecidableEq

def srw_counters.init : srw_counters := ⟨0, 0, 0⟩

/-- cmap_t: per-event counter map; operator[] default-constructs a missing
entry, so lookup totalises with the zero counters. -/
abbrev Cmap := List (List Char × srw_counters)

def cmapGet (m : Cmap) (e : List Char) : srw_counters :=
  (alistGet m e).getD srw_counters.init

def cmapSet (m : Cmap) (e : List Char) (c : srw_counters) : Cmap :=
  alistSet m e c

/-- dnet_app_t::update: bump the reply counter when REPLY or FINISH is set,
else the blocked counter when SRC_BLOCK is set, else the nonblocked one. -/
def updateCounters (m : Cmap) (event : List Char) (flags : Nat) : Cmap :=
  if hasFlag flags (DNET_SPH_FLAGS_REPLY ||| DNET_SPH_FLAGS_FINISH) then
    cmapSet m event { cmapGet m event with reply := (cmapGet m event).reply + 1 }
  else if hasFlag flags DNET_SPH_FLAGS_SRC_BLOCK then
    cmapSet m event { cmapGet m event with blocked := (cmapGet m event).blocked + 1 }
  else
    cmapSet m event { cmapGet m event with nonblocked := (cmapGet m event).nonblocked + 1 }

/-- The registry-owned state of one dnet_app_t: pool size (-1 = unset), the
per-app monotonic shard index (atomic_set to 1 in the constructor), the task
id prefix ("default" initially), and the per-event counters. -/
structure dnet_app_t where
  m_pool_size : Int
  m_sph_index : Nat
  m_id : List Char
  m_counters : Cmap
deriving Repr, DecidableEq

def dnet_app_t.init : dnet_app_t :=
  { m_pool_size := -1, m_sph_index := 1, m_id := "default".data, m_counters := [] }

/-- Modelled from the spec: elliptics' atomic_inc (the atomic header is not in
the tree) advances the monotonically-increasing counter and returns the new
value. -/
def atomic_inc (n : Nat) : Nat × Nat := (n + 1, n + 1)

def dnet_app_t.update (a : dnet_app_t) (event : List Char) (flags : Nat) : dnet_app_t :=
  { a with m_counters := updateCounters a.m_counters event flags }

/-- dnet_app_t::get_index.  C++ `%` on int is truncated-division remainder,
hence Int.tmod. -/
def dnet_app_t.get_index (a : dnet_app_t) (sph_index : Int) : Int × dnet_app_t :=
  if a.m_pool_size = -1 then (-1, a)
  else if sph_index = -1 then
    let r := atomic_inc a.m_sph_index
    (Int.tmod (Int.ofNat r.1) a.m_pool_size, { a with m_sph_index := r.2 })
  else (Int.tmod sph_index a.m_pool_size, a)

/-! ## The dispatcher (class srw) -/

structure JobEntry where
  cfg : UpCfg
  ust : UpstreamState
deriving Repr, DecidableEq

abbrev Emap := List (List Char × dnet_app_t)
abbrev Jmap := List (Int × JobEntry)

/-- The mutable srw singletons: the app registry m_map, the job table m_jobs,
and the process-wide block-key counter m_src_key (atomic_set to 1 in the
constructor). -/
structure SrwState where
  m_map : Emap
  m_jobs : Jmap
  m_src_key : Nat
deriving Repr, DecidableEq

/-- External collaborators consumed by process: the profile store read during
start-multiple-task (idle-timeout and pool-limit of the app's profile), the
JSON serialisation of app info merged with counters, and whether the
runtime's enqueue / request-stream write / close throws for this call. -/
structure Env where
  profile : List Char → Int × Int
  infoJson : List Char → Cmap → List Char
  enqueueThrows : Bool

/-- The queue an exec request is enqueued on: the plain app name, or the
sharded name task_id "-" app "-" index. -/
inductive Queue where
  | plain (app : List Char)
  | sharded (task_id : List Char) (app : List Char) (index : Int)
deriving Repr, DecidableEq

/-- Observable outputs of one process call: client-side sends and worker-side
enqueues (with the frame written into the request stream). -/
inductive POut where
  | client (e : Emission)
  | enqueued (q : Queue) (ev : List Char) (f : Frame)
deriving Repr, DecidableEq

structure PResult where
  ret : Int
  st : SrwState
  out : List POut
  sph : Sph
  cmd : Cmd
deriving Repr, DecidableEq

/-- strchr(event, at-sign): split the event name at its first at-sign into
application and method, or none when the character is absent. -/
def splitEvent : List Char → Option (List Char × List Char)
  | [] => none
  | c :: rest =>
    if c = '@' then some ([], rest)
    else
      match splitEvent rest with
      | none => none
      | some (a, b) => some (c :: a, b)

def idle_min : Int := 60 * 60 * 24 * 30

/-- srw::process.  `event` is the event_size-byte event name following the
header and `payload` the data_size bytes after it; `nodeAddr` is
st->n->addrs[0].  Returns the erred/mutated state together with the recorded
outputs and the final values of the caller-visible *sph and *cmd. -/
def process (st : SrwState) (env : Env) (nodeAddr : List Nat) (cmd : Cmd) (sph : Sph)
    (event : List Char) (payload : List Char) : PResult :=
  match splitEvent event with
  | none => ⟨-EINVAL, st, [], sph, cmd⟩
  | some (app, ev) =>
    if ev = "start-task".data ∨ ev = "start-multiple-task".data then
      match alistGet st.m_map app with
      | some _ => ⟨0, st, [], sph, cmd⟩
      | none =>
        if ev = "start-multiple-task".data then
          let pr := env.profile app
          if pr.1 ≠ 0 ∧ pr.1 < idle_min then ⟨-EINVAL, st, [], sph, cmd⟩
          else
            let eng1 := { dnet_app_t.init with m_pool_size := pr.2 }
            let eng2 := if sph.data_size ≠ 0 then { eng1 with m_id := payload } else eng1
            ⟨0, { st with m_map := alistInsert st.m_map app eng2 }, [], sph, cmd⟩
        else
          ⟨0, { st with m_map := alistInsert st.m_map app dnet_app_t.init }, [], sph, cmd⟩
    else if ev = "stop-task".data then
      ⟨0, { st with m_map := alistErase st.m_map app }, [], sph, cmd⟩
    else if ev = "info".data then
      match alistGet st.m_map app with
      | none => ⟨-ENOENT, st, [], sph, cmd⟩
      | some a =>
        let s := env.infoJson app a.m_counters
        let hdr : Sph :=
          { data_size := s.length, event_size := event.length, flags := 0,
            src_key := 0, src := List.replicate 64 0, addr := nodeAddr }
        ⟨0, st, [POut.client (Emission.frame true ⟨hdr, event, s⟩)], sph, cmd⟩
    else if hasFlag sph.flags (DNET_SPH_FLAGS_REPLY ||| DNET_SPH_FLAGS_FINISH) then
      let final := hasFlag sph.flags DNET_SPH_FLAGS_FINISH
      match alistGet st.m_jobs sph.src_key with
      | none => ⟨-ENOENT, st, [], sph, cmd⟩
      | some je =>
        let jobs1 := if final then alistErase st.m_jobs sph.src_key else st.m_jobs
        let map1 :=
          match alistGet st.m_map app with
          | some a => alistSet st.m_map app (a.update event sph.flags)
          | none => st.m_map
        let r := replyUp je.cfg je.ust final (some ⟨sph, event, payload⟩)
        let jobs2 := if final then jobs1 else alistSet jobs1 sph.src_key ⟨je.cfg, r.1⟩
        let sph1 := { sph with addr := nodeAddr }
        ⟨0, ⟨map1, jobs2, st.m_src_key⟩, r.2.map POut.client, sph1, cmd⟩
    else
      let src_key0 := sph.src_key
      let block := hasFlag sph.flags DNET_SPH_FLAGS_SRC_BLOCK
      let ctr1 := if block then st.m_src_key + 1 else st.m_src_key
      let sph1 := if block then { sph with src_key := Int.ofNat ctr1, src := cmd.id } else sph
      match alistGet st.m_map app with
      | none => ⟨-ENOENT, { st with m_src_key := ctr1 }, [], sph1, cmd⟩
      | some a =>
        let a1 := a.update event sph1.flags
        let cfg : UpCfg := ⟨sph1, event, cmd⟩
        let jobs1 :=
          if block then alistInsert st.m_jobs sph1.src_key ⟨cfg, initUpstream cfg⟩
          else st.m_jobs
        let gi := a1.get_index src_key0
        let map1 := alistSet st.m_map app gi.2
        let q : Queue := if gi.1 = -1 then .plain app else .sharded gi.2.m_id app gi.1
        if env.enqueueThrows then
          ⟨-EXFULL, ⟨map1, jobs1, ctr1⟩, [], sph1, cmd⟩
        else
          let cmd1 := if block then { cmd with need_ack := false } else cmd
          ⟨0, ⟨map1, jobs1, ctr1⟩, [POut.enqueued q ev ⟨sph1, event, payload⟩], sph1, cmd1⟩

/-- srw::complete_job, the deleter invoked by dnet_upstream_t::close: look up
the captured sph's src_key in the job table and erase the entry when found. -/
def complete_job (st : SrwState) (sph : Sph) : SrwState :=
  match alistGet st.m_jobs sph.src_key with
  | none => st
  | some _ => { st with m_jobs := alistErase st.m_jobs sph.src_key }

/-! ## Helper lemmas: the Upstream latch -/

theorem replyUp_completed (cfg : UpCfg) (st : UpstreamState) (c : Bool) (p : Option Frame)
    (h : st.m_completed = true) : replyUp cfg st c p = (st, []) := by
  simp [replyUp, h]

theorem replyUp_true_completed (cfg : UpCfg) (st : UpstreamState) (p : Option Frame) :
    (replyUp cfg st true p).1.m_completed = true := by
  by_cases h : st.m_completed
  · simp [replyUp, h]
  · cases p <;> by_cases hb : srcBlock cfg <;>
      simp [replyUp, h, hb]

theorem stepUp_completed_emits_nothing (cfg : UpCfg) (st : UpstreamState) (op : UpOp)
    (h : st.m_completed = true) : (stepUp cfg st op).2 = [] := by
  cases op with
  | write dec =>
    cases dec <;> simp [stepUp, writeUp, replyUp_completed _ _ _ _ h]
  | close => simp [stepUp, closeUp, replyUp_completed _ _ _ _ h]
  | error c => simp [stepUp, errorUp]
  | reply c p => simp [stepUp, replyUp_completed _ _ _ _ h]
  | dtor => simp [stepUp, dtorUp, replyUp_completed _ _ _ _ h]

theorem stepUp_completed_stays (cfg : UpCfg) (st : UpstreamState) (op : UpOp)
    (h : st.m_completed = true) : (stepUp cfg st op).1.m_completed = true := by
  cases op with
  | write dec =>
    cases dec <;> simp [stepUp, writeUp, replyUp_completed _ _ _ _ h, h]
  | close => simp [stepUp, closeUp, replyUp_completed _ _ _ _ h, h]
  | error c => simp [stepUp, errorUp, h]
  | reply c p => simp [stepUp, replyUp_completed _ _ _ _ h, h]
  | dtor => simp [stepUp, dtorUp, replyUp_completed _ _ _ _ h, h]

theorem runUp_completed (cfg : UpCfg) (ops : List UpOp) :
    ∀ st : UpstreamState, st.m_completed = true →
      (runUp cfg st ops).2 = [] ∧ (runUp cfg st ops).1.m_completed = true := by
  induction ops with
  | nil => intro st h; simp [runUp, h]
  | cons op ops ih =>
    intro st h
    have h1 := stepUp_completed_emits_nothing cfg st op h
    have h2 := stepUp_completed_stays cfg st op h
    have h3 := ih (stepUp cfg st op).1 h2
    simp [runUp, h1, h3.1, h3.2]

theorem replyUp_not_completed (cfg : UpCfg) (st : UpstreamState) (c : Bool) (p : Option Frame)
    (h : st.m_completed = false) :
    termCount (replyUp cfg st c p).2 ≤ 1
  ∧ (replyUp cfg st c p).1.m_completed = c
  ∧ (1 ≤ termCount (replyUp cfg st c p).2 → c = true)
  ∧ (srcBlock cfg = true →
      termCount (replyUp cfg st c p).2 = if c then 1 else 0) := by
  by_cases hb : srcBlock cfg <;> cases p <;> cases c <;>
    simp [replyUp, h, hb, termCount, isTerminal]

theorem stepUp_not_completed (cfg : UpCfg) (st : UpstreamState) (op : UpOp)
    (h : st.m_completed = false) :
    termCount (stepUp cfg st op).2 ≤ 1
  ∧ (1 ≤ termCount (stepUp cfg st op).2 → (stepUp cfg st op).1.m_completed = true)
  ∧ (srcBlock cfg = true →
      termCount (stepUp cfg st op).2 = if (stepUp cfg st op).1.m_completed then 1 else 0) := by
  cases op with
  | write dec =>
    cases dec with
    | failUnpack =>
      have hr := replyUp_not_completed cfg st true none h
      simp only [stepUp, writeUp]
      exact ⟨hr.1, fun _ => hr.2.1, fun hb => by rw [hr.2.2.2 hb]; simp [hr.2.1]⟩
    | notRaw =>
      have hr := replyUp_not_completed cfg st true none h
      simp only [stepUp, writeUp]
      exact ⟨hr.1, fun _ => hr.2.1, fun hb => by rw [hr.2.2.2 hb]; simp [hr.2.1]⟩
    | raw p =>
      have hr := replyUp_not_completed cfg st false (some (mkWriteFrame cfg p)) h
      simp only [stepUp, writeUp]
      refine ⟨hr.1, fun h1 => absurd (hr.2.2.1 h1) (by simp), fun hb => ?_⟩
      rw [hr.2.2.2 hb]
      simp [hr.2.1]
  | close =>
    have hr := replyUp_not_completed cfg st true none h
    simp only [stepUp, closeUp]
    exact ⟨hr.1, fun _ => hr.2.1, fun hb => by rw [hr.2.2.2 hb]; simp [hr.2.1]⟩
  | error c =>
    refine ⟨by simp [stepUp, errorUp, termCount], by simp [stepUp, errorUp, termCount], ?_⟩
    intro hb
    simp [stepUp, errorUp, termCount, h]
  | reply c p =>
    have hr := replyUp_not_completed cfg st c p h
    simp only [stepUp]
    refine ⟨hr.1, ?_, ?_⟩
    · intro h1
      rw [hr.2.1]
      exact hr.2.2.1 h1
    · intro hb
      rw [hr.2.2.2 hb]
      simp [hr.2.1]
  | dtor =>
    have hr := replyUp_not_completed cfg st true none h
    simp only [stepUp, dtorUp]
    exact ⟨hr.1, fun _ => hr.2.1, fun hb => by rw [hr.2.2.2 hb]; simp [hr.2.1]⟩

theorem runUp_cons (cfg : UpCfg) (st : UpstreamState) (op : UpOp) (ops : List UpOp) :
    runUp cfg st (op :: ops) =
      ((runUp cfg (stepUp cfg st op).1 ops).1,
       (stepUp cfg st op).2 ++ (runUp cfg (stepUp cfg st op).1 ops).2) := by
  simp [runUp]

theorem runUp_term_le (cfg : UpCfg) (ops : List UpOp) :
    ∀ st : UpstreamState, termCount (runUp cfg st ops).2 ≤ 1 := by
  induction ops with
  | nil => intro st; simp [runUp, termCount]
  | cons op ops ih =>
    intro st
    by_cases hc : st.m_completed
    · have h := runUp_completed cfg (op :: ops) st hc
      rw [h.1]
      simp [termCount]
    · have hs := stepUp_not_completed cfg st op (by simpa using hc)
      rw [runUp_cons, termCount_append]
      by_cases h1 : (stepUp cfg st op).1.m_completed
      · have hrest := runUp_completed cfg ops (stepUp cfg st op).1 h1
        rw [hrest.1]
        simpa [termCount] using hs.1
      · have hz : termCount (stepUp cfg st op).2 = 0 := by
          by_contra hnz
          exact h1 (hs.2.1 (Nat.one_le_iff_ne_zero.mpr hnz))
        rw [hz]
        simpa using ih (stepUp cfg st op).1

theorem runUp_term_block (cfg : UpCfg) (hb : srcBlock cfg = true) (ops : List UpOp) :
    ∀ st : UpstreamState, st.m_completed = false →
      termCount (runUp cfg st ops).2 = if (runUp cfg st ops).1.m_completed then 1 else 0 := by
  induction ops with
  | nil => intro st h; simp [runUp, termCount, h]
  | cons op ops ih =>
    intro st h
    have hs := stepUp_not_completed cfg st op h
    rw [runUp_cons, termCount_append]
    by_cases h1 : (stepUp cfg st op).1.m_completed
    · have hrest := runUp_completed cfg ops (stepUp cfg st op).1 h1
      rw [hrest.1, hrest.2, hs.2.2 hb, if_pos h1]
      simp [termCount]
    · rw [hs.2.2 hb, if_neg h1]
      simpa using ih (stepUp cfg st op).1 (by simpa using h1)

theorem runUp_dtor_completed (cfg : UpCfg) (ops : List UpOp) :
    ∀ st : UpstreamState, ops.getLast? = some UpOp.dtor →
      (runUp cfg st ops).1.m_completed = true := by
  induction ops with
  | nil => intro st h; simp at h
  | cons op ops ih =>
    intro st h
    cases ops with
    | nil =>
      simp at h
      subst h
      simp [runUp, stepUp, dtorUp, replyUp_true_completed]
    | cons op2 ops2 =>
      rw [List.getLast?_cons_cons] at h
      rw [runUp_cons]
      exact ih (stepUp cfg st op).1 h

/-! ## Claim C1: terminal-emission discipline of the Upstream -/

/-- C1 counterexample: the claim states that once the completed latch is set
by reply, every later write, error, or close call changes no Upstream state;
but dnet_upstream_t::error overwrites m_error unconditionally, so after a
latching reply an error(5) call still mutates the state (m_error goes from 0
to -5). -/
theorem upstream_error_after_latch_mutates_state :
    ((stepUp ⟨⟨0, 0, 1, 0, [], []⟩, "e".data, ⟨[], true⟩⟩
        (initUpstream ⟨⟨0, 0, 1, 0, [], []⟩, "e".data, ⟨[], true⟩⟩)
        (UpOp.reply true none)).1.m_completed = true)
  ∧ (stepUp ⟨⟨0, 0, 1, 0, [], []⟩, "e".data, ⟨[], true⟩⟩
      (stepUp ⟨⟨0, 0, 1, 0, [], []⟩, "e".data, ⟨[], true⟩⟩
        (initUpstream ⟨⟨0, 0, 1, 0, [], []⟩, "e".data, ⟨[], true⟩⟩)
        (UpOp.reply true none)).1
      (UpOp.error 5)).1
    ≠ (stepUp ⟨⟨0, 0, 1, 0, [], []⟩, "e".data, ⟨[], true⟩⟩
        (initUpstream ⟨⟨0, 0, 1, 0, [], []⟩, "e".data, ⟨[], true⟩⟩)
        (UpOp.reply true none)).1 := by
  decide

/-- C1 (amended): over any sequence of Upstream operations started from the
freshly constructed state, (1) when SRC_BLOCK was captured and the sequence
ends with the destructor, exactly one client-visible terminal emission (an
ack or a data frame sent with the completed flag) occurs; (2) in every case
at most one terminal emission occurs; (3) once the completed latch is set,
every later operation produces no client-visible output, and write and close
change no Upstream state — but error still overwrites the stored error code
(the correction to the claim). -/
theorem upstream_terminal_emission_discipline (cfg : UpCfg) :
    (∀ ops : List UpOp, srcBlock cfg = true → ops.getLast? = some UpOp.dtor →
        termCount (runUp cfg (initUpstream cfg) ops).2 = 1)
  ∧ (∀ ops : List UpOp, termCount (runUp cfg (initUpstream cfg) ops).2 ≤ 1)
  ∧ (∀ st : UpstreamState, st.m_completed = true →
        (∀ op : UpOp, (stepUp cfg st op).2 = [])
      ∧ (∀ dec : DecodeResult, stepUp cfg st (UpOp.write dec) = (st, []))
      ∧ stepUp cfg st UpOp.close = (st, [])
      ∧ (∀ c : Int, stepUp cfg st (UpOp.error c) = ({ st with m_error := -c }, []))) := by
  refine ⟨?_, ?_, ?_⟩
  · intro ops hb hlast
    rw [runUp_term_block cfg hb ops (initUpstream cfg) rfl,
        runUp_dtor_completed cfg ops (initUpstream cfg) hlast]
    simp
  · intro ops
    exact runUp_term_le cfg ops (initUpstream cfg)
  · intro st h
    refine ⟨fun op => stepUp_completed_emits_nothing cfg st op h, ?_, ?_, ?_⟩
    · intro dec
      cases dec <;> simp [stepUp, writeUp, replyUp_completed _ _ _ _ h]
    · simp [stepUp, closeUp, replyUp_completed _ _ _ _ h]
    · intro c
      simp [stepUp, errorUp]

/-- C1 witness: a concrete SRC_BLOCK run (valid write, then destructor)
emits exactly one terminal frame. -/
theorem upstream_terminal_emission_discipline_witness :
    termCount (runUp ⟨⟨0, 0, 1, 0, [], []⟩, "e".data, ⟨[], true⟩⟩
      (initUpstream ⟨⟨0, 0, 1, 0, [], []⟩, "e".data, ⟨[], true⟩⟩)
      [UpOp.write (DecodeResult.raw "9".data), UpOp.dtor]).2 = 1 :=
  (upstream_terminal_emission_discipline _).1
    [UpOp.write (DecodeResult.raw "9".data), UpOp.dtor] (by decide) (by decide)

/-! ## Claim C4: write on a malformed chunk -/

/-- C4 counterexample: the claim states a malformed worker chunk makes the
Upstream emit a terminal error carrying EINVAL.  In the code the EINVAL value
is only logged: the error path calls reply(true, NULL, 0), whose ack carries
m_error (still 0 here), and when SRC_BLOCK is absent nothing is emitted at
all. -/
theorem write_malformed_ack_not_einval :
    (writeUp ⟨⟨0, 0, 1, 0, [], []⟩, "e".data, ⟨[], true⟩⟩
        (initUpstream ⟨⟨0, 0, 1, 0, [], []⟩, "e".data, ⟨[], true⟩⟩)
        DecodeResult.failUnpack).2 = [Emission.ack 0]
  ∧ (0 : Int) ≠ EINVAL ∧ (0 : Int) ≠ -EINVAL
  ∧ (writeUp ⟨⟨0, 0, 0, 0, [], []⟩, "e".data, ⟨[], true⟩⟩
        (initUpstream ⟨⟨0, 0, 0, 0, [], []⟩, "e".data, ⟨[], true⟩⟩)
        DecodeResult.failUnpack).2 = [] := by
  decide

/-- C4 (amended): a chunk that fails to decode or whose top-level type is not
a binary string latches the completed flag, so no further frames follow; the
client-side output is a terminal ack carrying the STORED error code (not
EINVAL) when SRC_BLOCK was set, and nothing at all otherwise. -/
theorem write_malformed_latches_with_stored_error (cfg : UpCfg) (st : UpstreamState)
    (dec : DecodeResult) (h : st.m_completed = false)
    (hdec : dec = DecodeResult.failUnpack ∨ dec = DecodeResult.notRaw) :
    (writeUp cfg st dec).1.m_completed = true
  ∧ (writeUp cfg st dec).2 = (if srcBlock cfg then [Emission.ack st.m_error] else [])
  ∧ (∀ op : UpOp, (stepUp cfg (writeUp cfg st dec).1 op).2 = []) := by
  have hw : writeUp cfg st dec = replyUp cfg st true none := by
    rcases hdec with h1 | h1 <;> rw [h1] <;> rfl
  rw [hw]
  have hc : (replyUp cfg st true none).1.m_completed = true := replyUp_true_completed cfg st none
  refine ⟨hc, ?_, fun op => stepUp_completed_emits_nothing cfg _ op hc⟩
  by_cases hb : srcBlock cfg <;> simp [replyUp, h, hb]

/-- C4 witness: concrete instantiation, SRC_BLOCK set and a prior error(5)
recorded: the terminal ack carries -5. -/
theorem write_malformed_latches_with_stored_error_witness :
    (writeUp ⟨⟨0, 0, 1, 0, [], []⟩, "e".data, ⟨[], true⟩⟩ ⟨false, -5, true⟩
        DecodeResult.notRaw).1.m_completed = true
  ∧ (writeUp ⟨⟨0, 0, 1, 0, [], []⟩, "e".data, ⟨[], true⟩⟩ ⟨false, -5, true⟩
        DecodeResult.notRaw).2
      = (if srcBlock ⟨⟨0, 0, 1, 0, [], []⟩, "e".data, ⟨[], true⟩⟩
          then [Emission.ack (-5)] else [])
  ∧ (∀ op : UpOp,
      (stepUp ⟨⟨0, 0, 1, 0, [], []⟩, "e".data, ⟨[], true⟩⟩
        (writeUp ⟨⟨0, 0, 1, 0, [], []⟩, "e".data, ⟨[], true⟩⟩ ⟨false, -5, true⟩
          DecodeResult.notRaw).1 op).2 = []) :=
  write_malformed_latches_with_stored_error
    ⟨⟨0, 0, 1, 0, [], []⟩, "e".data, ⟨[], true⟩⟩ ⟨false, -5, true⟩
    DecodeResult.notRaw rfl (Or.inr rfl)

/-! ## Helper lemmas: counters and truncated remainder -/

theorem cmapGet_set_self (m : Cmap) (e : List Char) (c : srw_counters) :
    cmapGet (cmapSet m e c) e = c := by
  simp [cmapGet, cmapSet, alistGet_set_self]

theorem cmapGet_set_other (m : Cmap) (e e' : List Char) (c : srw_counters) (h : e' ≠ e) :
    cmapGet (cmapSet m e c) e' = cmapGet m e' := by
  simp [cmapGet, cmapSet, alistGet_set_other _ _ _ _ h]

theorem tmod_nonpos_of_neg (a b : Int) (h : a < 0) : Int.tmod a b ≤ 0 := by
  cases a with
  | ofNat m =>
    rw [Int.ofNat_eq_natCast] at h
    omega
  | negSucc m =>
    cases b with
    | ofNat n =>
      simp only [Int.tmod]
      exact neg_nonpos_of_nonneg (Int.ofNat_nonneg _)
    | negSucc n =>
      simp only [Int.tmod]
      exact neg_nonpos_of_nonneg (Int.ofNat_nonneg _)

/-! ## Claim C5: shard selection (dnet_app_t::get_index) -/

/-- C5: with the pool size unset (-1) get_index returns -1 and changes
nothing; with pool size N > 0 and src_key k ≥ 0 it returns k mod N and
changes nothing; with src_key = -1 it draws the next value of the per-app
monotonic index (strictly above the previous one) and returns it modulo N. -/
theorem get_index_spec (a : dnet_app_t) :
    (a.m_pool_size = -1 → ∀ k : Int, a.get_index k = (-1, a))
  ∧ (∀ N k : Int, a.m_pool_size = N → 0 < N → 0 ≤ k →
      a.get_index k = (k % N, a))
  ∧ (∀ N : Int, a.m_pool_size = N → 0 < N →
      (a.get_index (-1)).1 = ((a.m_sph_index : Int) + 1) % N
    ∧ (a.get_index (-1)).2.m_sph_index = a.m_sph_index + 1
    ∧ a.m_sph_index < (a.get_index (-1)).2.m_sph_index) := by
  refine ⟨?_, ?_, ?_⟩
  · intro h k
    simp [dnet_app_t.get_index, h]
  · intro N k hN hNpos hk
    have h1 : ¬a.m_pool_size = -1 := by omega
    have h2 : ¬k = -1 := by omega
    rw [dnet_app_t.get_index, if_neg h1, if_neg h2, hN,
        Int.tmod_eq_emod hk (le_of_lt hNpos)]
  · intro N hN hNpos
    have h1 : ¬a.m_pool_size = -1 := by omega
    refine ⟨?_, ?_, ?_⟩
    · rw [dnet_app_t.get_index, if_neg h1, if_pos rfl, hN]
      simp only [atomic_inc, Int.ofNat_eq_natCast]
      rw [Int.tmod_eq_emod (Int.natCast_nonneg _) (le_of_lt hNpos)]
      congr 1
    · rw [dnet_app_t.get_index, if_neg h1, if_pos rfl]
      rfl
    · rw [dnet_app_t.get_index, if_neg h1, if_pos rfl]
      simp [atomic_inc]

/-- C5 witness: pool size 4; src_key 10 maps to shard 2, src_key -1 draws the
next monotonic value (2, from the initial index 1) and maps it mod 4. -/
theorem get_index_spec_witness :
    (⟨4, 1, "default".data, []⟩ : dnet_app_t).get_index 10
      = ((10 : Int) % 4, ⟨4, 1, "default".data, []⟩)
  ∧ ((⟨4, 1, "default".data, []⟩ : dnet_app_t).get_index (-1)).1
      = ((((1 : Nat) : Int) + 1) % 4)
  ∧ (1 : Nat)
      < ((⟨4, 1, "default".data, []⟩ : dnet_app_t).get_index (-1)).2.m_sph_index :=
  ⟨(get_index_spec ⟨4, 1, "default".data, []⟩).2.1 4 10 rfl (by decide) (by decide),
   ((get_index_spec ⟨4, 1, "default".data, []⟩).2.2 4 rfl (by decide)).1,
   ((get_index_spec ⟨4, 1, "default".data, []⟩).2.2 4 rfl (by decide)).2.2⟩

/-! ## Claim C7: counter update (dnet_app_t::update) -/

/-- C7: updateCounters bumps exactly one of the three counters of
(app, event) by one, chosen by flag priority (REPLY or FINISH first, then
SRC_BLOCK, else nonblocked), leaves every other event's counters untouched,
and never decrements anything. -/
theorem update_counters_exactly_one (m : Cmap) (event : List Char) (flags : Nat) :
    (hasFlag flags (DNET_SPH_FLAGS_REPLY ||| DNET_SPH_FLAGS_FINISH) = true →
        cmapGet (updateCounters m event flags) event
          = { cmapGet m event with reply := (cmapGet m event).reply + 1 })
  ∧ (hasFlag flags (DNET_SPH_FLAGS_REPLY ||| DNET_SPH_FLAGS_FINISH) = false →
     hasFlag flags DNET_SPH_FLAGS_SRC_BLOCK = true →
        cmapGet (updateCounters m event flags) event
          = { cmapGet m event with blocked := (cmapGet m event).blocked + 1 })
  ∧ (hasFlag flags (DNET_SPH_FLAGS_REPLY ||| DNET_SPH_FLAGS_FINISH) = false →
     hasFlag flags DNET_SPH_FLAGS_SRC_BLOCK = false →
        cmapGet (updateCounters m event flags) event
          = { cmapGet m event with nonblocked := (cmapGet m event).nonblocked + 1 })
  ∧ (∀ e' : List Char, e' ≠ event →
        cmapGet (updateCounters m event flags) e' = cmapGet m e')
  ∧ (∀ e' : List Char,
        (cmapGet m e').blocked ≤ (cmapGet (updateCounters m event flags) e').blocked
      ∧ (cmapGet m e').nonblocked ≤ (cmapGet (updateCounters m event flags) e').nonblocked
      ∧ (cmapGet m e').reply ≤ (cmapGet (updateCounters m event flags) e').reply) := by
  refine ⟨?_, ?_, ?_, ?_, ?_⟩
  · intro h1
    simp [updateCounters, h1, cmapGet_set_self]
  · intro h1 h2
    simp [updateCounters, h1, h2, cmapGet_set_self]
  · intro h1 h2
    simp [updateCounters, h1, h2, cmapGet_set_self]
  · intro e' he
    unfold updateCounters
    split <;> [skip; split] <;> exact cmapGet_set_other _ _ _ _ he
  · intro e'
    by_cases he : e' = event
    · subst he
      unfold updateCounters
      split <;> [skip; split] <;> simp [cmapGet_set_self]
    · unfold updateCounters
      split <;> [skip; split] <;> simp [cmapGet_set_other _ _ _ _ he]

/-- C7 witness: with flags = REPLY on an empty map, only the reply counter of
the event becomes 1 and another event keeps the zero counters. -/
theorem update_counters_exactly_one_witness :
    cmapGet (updateCounters [] "square".data 2) "square".data
      = { cmapGet ([] : Cmap) "square".data with
          reply := (cmapGet ([] : Cmap) "square".data).reply + 1 }
  ∧ cmapGet (updateCounters [] "square".data 2) "cube".data
      = cmapGet ([] : Cmap) "cube".data :=
  ⟨(update_counters_exactly_one [] "square".data 2).1 (by decide),
   (update_counters_exactly_one [] "square".data 2).2.2.2.1 "cube".data (by decide)⟩

/-! ## Claim C8: events without an at-sign -/

theorem splitEvent_eq_none (e : List Char) (h : '@' ∉ e) : splitEvent e = none := by
  induction e with
  | nil => rfl
  | cons c rest ih =>
    rw [List.mem_cons] at h
    push_neg at h
    simp [splitEvent, Ne.symm h.1, ih h.2]

/-- C8: an inbound command whose event name contains no at-sign makes process
return -EINVAL with the state unmodified, no output emitted, and the header
and command untouched. -/
theorem process_no_at_einval_no_mutation (st : SrwState) (env : Env) (nodeAddr : List Nat)
    (cmd : Cmd) (sph : Sph) (event payload : List Char) (h : '@' ∉ event) :
    process st env nodeAddr cmd sph event payload = ⟨-EINVAL, st, [], sph, cmd⟩ := by
  simp [process, splitEvent_eq_none event h]

/-- C8 witness: the event "noatsign" on an empty core state. -/
theorem process_no_at_einval_no_mutation_witness :
    process ⟨[], [], 1⟩ ⟨fun _ => (0, 0), fun _ _ => [], false⟩ [] ⟨[], true⟩
        ⟨0, 8, 0, 0, [], []⟩ "noatsign".data []
      = ⟨-EINVAL, ⟨[], [], 1⟩, [], ⟨0, 8, 0, 0, [], []⟩, ⟨[], true⟩⟩ :=
  process_no_at_einval_no_mutation _ _ _ _ _ _ _ (by decide)

/-! ## Claim C6: start-multiple-task and the idle-timeout floor -/

theorem idle_min_eq : idle_min = 2592000 := by norm_num [idle_min]

/-- C6: a start-multiple-task request for an app that is not yet registered
fails with -EINVAL exactly when the profile's idle-timeout is non-zero and
strictly below 2592000 seconds, and on failure nothing is mutated; otherwise
the app is inserted with pool size taken from the profile's pool-limit. -/
theorem start_multiple_task_idle_floor (st : SrwState) (env : Env) (nodeAddr : List Nat)
    (cmd : Cmd) (sph : Sph) (event payload app : List Char) (idle pl : Int)
    (hsplit : splitEvent event = some (app, "start-multiple-task".data))
    (happ : alistGet st.m_map app = none)
    (hprof : env.profile app = (idle, pl)) :
    ((idle ≠ 0 ∧ idle < 2592000) →
        process st env nodeAddr cmd sph event payload = ⟨-EINVAL, st, [], sph, cmd⟩)
  ∧ (¬(idle ≠ 0 ∧ idle < 2592000) →
        (process st env nodeAddr cmd sph event payload).ret = 0
      ∧ alistGet (process st env nodeAddr cmd sph event payload).st.m_map app
          = some { dnet_app_t.init with
                     m_pool_size := pl,
                     m_id := if sph.data_size ≠ 0 then payload else dnet_app_t.init.m_id }) := by
  have hif1 : ("start-multiple-task".data = "start-task".data
      ∨ "start-multiple-task".data = "start-multiple-task".data) := Or.inr rfl
  constructor
  · intro hidle
    have hcond : (env.profile app).1 ≠ 0 ∧ (env.profile app).1 < idle_min := by
      rw [hprof, idle_min_eq]
      exact hidle
    simp [process, hsplit, happ, hif1, hcond]
  · intro hidle
    constructor
    · simp [process, hsplit, happ, hif1, hprof, idle_min_eq, hidle]
    · by_cases hd : sph.data_size ≠ 0 <;>
        simp [process, hsplit, happ, hif1, hd, hprof, idle_min_eq, hidle,
              alistGet_insert_self _ _ _ happ]

/-- C6 witness: profile with idle-timeout 60 and pool-limit 4 is rejected
with -EINVAL on one core state, while idle-timeout 0 leads to insertion with
pool size 4 on another. -/
theorem start_multiple_task_idle_floor_witness :
    process ⟨[], [], 1⟩ ⟨fun _ => (60, 4), fun _ _ => [], false⟩ [] ⟨[], true⟩
        ⟨0, 26, 0, 0, [], []⟩ "svc@start-multiple-task".data []
      = ⟨-EINVAL, ⟨[], [], 1⟩, [], ⟨0, 26, 0, 0, [], []⟩, ⟨[], true⟩⟩
  ∧ alistGet (process ⟨[], [], 1⟩ ⟨fun _ => (0, 4), fun _ _ => [], false⟩ [] ⟨[], true⟩
        ⟨0, 26, 0, 0, [], []⟩ "svc@start-multiple-task".data []).st.m_map "svc".data
      = some { dnet_app_t.init with
                 m_pool_size := 4,
                 m_id := if (Sph.mk 0 26 0 0 [] []).data_size ≠ 0 then []
                         else dnet_app_t.init.m_id } :=
  ⟨(start_multiple_task_idle_floor ⟨[], [], 1⟩ ⟨fun _ => (60, 4), fun _ _ => [], false⟩
      [] ⟨[], true⟩ ⟨0, 26, 0, 0, [], []⟩ "svc@start-multiple-task".data [] "svc".data 60 4
      (by decide) rfl rfl).1 (by decide),
   ((start_multiple_task_idle_floor ⟨[], [], 1⟩ ⟨fun _ => (0, 4), fun _ _ => [], false⟩
      [] ⟨[], true⟩ ⟨0, 26, 0, 0, [], []⟩ "svc@start-multiple-task".data [] "svc".data 0 4
      (by decide) rfl rfl).2 (by decide)).2⟩

/-! ## Claim C10: the info reply header -/

/-- C10: the reply frame for a successful info request is composed in a
zero-initialised header buffer, so every SPH field other than event_size,
data_size and addr — in particular flags, src_key and src — is zero; the
inbound frame's src_key correlator is not echoed back. -/
theorem info_reply_header_zeroed (st : SrwState) (env : Env) (nodeAddr : List Nat)
    (cmd : Cmd) (sph : Sph) (event payload app : List Char) (a : dnet_app_t)
    (hsplit : splitEvent event = some (app, "info".data))
    (happ : alistGet st.m_map app = some a) :
    (process st env nodeAddr cmd sph event payload).out
      = [POut.client (Emission.frame true
          ⟨⟨(env.infoJson app a.m_counters).length, event.length, 0, 0,
            List.replicate 64 0, nodeAddr⟩, event, env.infoJson app a.m_counters⟩)]
  ∧ (∀ f : Frame,
      (process st env nodeAddr cmd sph event payload).out
        = [POut.client (Emission.frame true f)] →
        f.hdr.flags = 0 ∧ f.hdr.src_key = 0 ∧ f.hdr.src = List.replicate 64 0
      ∧ f.hdr.addr = nodeAddr
      ∧ (sph.src_key ≠ 0 → f.hdr.src_key ≠ sph.src_key)) := by
  have h1 : ¬("info".data = "start-task".data ∨ "info".data = "start-multiple-task".data) := by
    decide
  have h2 : ¬("info".data = "stop-task".data) := by decide
  have hout : (process st env nodeAddr cmd sph event payload).out
      = [POut.client (Emission.frame true
          ⟨⟨(env.infoJson app a.m_counters).length, event.length, 0, 0,
            List.replicate 64 0, nodeAddr⟩, event, env.infoJson app a.m_counters⟩)] := by
    simp [process, hsplit, h1, h2, happ]
  refine ⟨hout, ?_⟩
  intro f hf
  rw [hout] at hf
  simp only [List.cons.injEq, POut.client.injEq, Emission.frame.injEq, true_and,
    and_true] at hf
  rw [← hf]
  exact ⟨rfl, rfl, rfl, rfl, fun h => Ne.symm h⟩

/-- C10 witness: a concrete info request whose inbound header carried
flags = SRC_BLOCK and src_key = 77 produces the zeroed reply header. -/
theorem info_reply_header_zeroed_witness :
    (process ⟨[("svc".data, dnet_app_t.init)], [], 1⟩
        ⟨fun _ => (0, 0), fun _ _ => "j".data, false⟩ [3] ⟨[], true⟩
        ⟨0, 8, 1, 77, [], [9]⟩ "svc@info".data []).out
      = [POut.client (Emission.frame true
          ⟨⟨("j".data).length, ("svc@info".data).length, 0, 0,
            List.replicate 64 0, [3]⟩, "svc@info".data, "j".data⟩)] :=
  (info_reply_header_zeroed ⟨[("svc".data, dnet_app_t.init)], [], 1⟩
    ⟨fun _ => (0, 0), fun _ _ => "j".data, false⟩ [3] ⟨[], true⟩
    ⟨0, 8, 1, 77, [], [9]⟩ "svc@info".data [] "svc".data dnet_app_t.init
    (by decide) rfl).1

/-! ## Claim C3: header rewriting on outbound reply frames -/

/-- C3 counterexample: the claim states every outbound frame carries this
node's address in addr at the moment of emission.  A forwarded REPLY frame is
sent to the upstream before the dispatcher patches sph->addr: with node
address [2] and inbound addr [1], the emitted frame still holds [1]. -/
theorem forwarded_reply_addr_not_rewritten :
    (process ⟨[("a".data, dnet_app_t.init)],
        [(5, ⟨⟨⟨0, 0, 1, 5, [], []⟩, [], ⟨[], true⟩⟩, ⟨false, 0, true⟩⟩)], 1⟩
        ⟨fun _ => (0, 0), fun _ _ => [], false⟩ [2] ⟨[], true⟩
        ⟨0, 3, 2, 5, [], [1]⟩ "a@b".data []).out
      = [POut.client (Emission.frame false ⟨⟨0, 3, 2, 5, [], [1]⟩, "a@b".data, []⟩)]
  ∧ ([1] : List Nat) ≠ [2] := by
  decide

/-- C3 (amended): event_size and data_size are rewritten on every outbound
reply frame, but addr is rewritten only on info replies.  (1) The info reply
carries the node address.  (2) A streamed worker-output frame built by
Upstream write keeps the CAPTURED inbound addr, with only event_size and
data_size patched.  (3) A forwarded REPLY/FINISH frame is handed to the
upstream verbatim — still holding the inbound addr — and sph->addr is
patched to the node address only after the send. -/
theorem outbound_frame_header_fields :
    (∀ (st : SrwState) (env : Env) (nodeAddr : List Nat) (cmd : Cmd) (sph : Sph)
        (event payload app : List Char) (a : dnet_app_t),
        splitEvent event = some (app, "info".data) →
        alistGet st.m_map app = some a →
        (process st env nodeAddr cmd sph event payload).out
          = [POut.client (Emission.frame true
              ⟨⟨(env.infoJson app a.m_counters).length, event.length, 0, 0,
                List.replicate 64 0, nodeAddr⟩, event, env.infoJson app a.m_counters⟩)])
  ∧ (∀ (cfg : UpCfg) (st : UpstreamState) (p : List Char), st.m_completed = false →
        (writeUp cfg st (DecodeResult.raw p)).2
          = [Emission.frame false
              ⟨{ cfg.sph with event_size := cfg.event.length, data_size := p.length },
               cfg.event, p⟩]
      ∧ ({ cfg.sph with event_size := cfg.event.length, data_size := p.length } : Sph).addr
          = cfg.sph.addr)
  ∧ (∀ (st : SrwState) (env : Env) (nodeAddr : List Nat) (cmd : Cmd) (sph : Sph)
        (event payload app ev : List Char) (je : JobEntry),
        splitEvent event = some (app, ev) →
        ev ≠ "start-task".data → ev ≠ "start-multiple-task".data →
        ev ≠ "stop-task".data → ev ≠ "info".data →
        hasFlag sph.flags (DNET_SPH_FLAGS_REPLY ||| DNET_SPH_FLAGS_FINISH) = true →
        alistGet st.m_jobs sph.src_key = some je →
        je.ust.m_completed = false →
        (process st env nodeAddr cmd sph event payload).out
          = [POut.client (Emission.frame (hasFlag sph.flags DNET_SPH_FLAGS_FINISH)
              ⟨sph, event, payload⟩)]
      ∧ (process st env nodeAddr cmd sph event payload).sph.addr = nodeAddr) := by
  refine ⟨?_, ?_, ?_⟩
  · intro st env nodeAddr cmd sph event payload app a hsplit happ
    have h1 : ¬("info".data = "start-task".data
        ∨ "info".data = "start-multiple-task".data) := by decide
    have h2 : ¬("info".data = "stop-task".data) := by decide
    simp [process, hsplit, h1, h2, happ]
  · intro cfg st p h
    exact ⟨by simp [writeUp, mkWriteFrame, replyUp, h], rfl⟩
  · intro st env nodeAddr cmd sph event payload app ev je hsplit hev1 hev2 hev3 hev4
      hrf hjob hju
    constructor
    · simp [process, hsplit, hev1, hev2, hev3, hev4, hrf, hjob, replyUp, hju]
    · simp [process, hsplit, hev1, hev2, hev3, hev4, hrf, hjob]

/-- C3 witness: instantiates the three amended conjuncts at concrete inputs:
an info request, an Upstream write with captured addr [1], and a forwarded
REPLY with inbound addr [1] on a node with address [2]. -/
theorem outbound_frame_header_fields_witness :
    (process ⟨[("svc".data, dnet_app_t.init)], [], 1⟩
        ⟨fun _ => (0, 0), fun _ _ => "j".data, false⟩ [3] ⟨[], true⟩
        ⟨0, 8, 0, 0, [], []⟩ "svc@info".data []).out
      = [POut.client (Emission.frame true
          ⟨⟨("j".data).length, ("svc@info".data).length, 0, 0,
            List.replicate 64 0, [3]⟩, "svc@info".data, "j".data⟩)]
  ∧ (writeUp ⟨⟨0, 0, 1, 0, [], [1]⟩, "e".data, ⟨[], true⟩⟩
        (initUpstream ⟨⟨0, 0, 1, 0, [], [1]⟩, "e".data, ⟨[], true⟩⟩)
        (DecodeResult.raw "9".data)).2
      = [Emission.frame false
          ⟨{ Sph.mk 0 0 1 0 [] [1] with event_size := ("e".data).length, data_size := ("9".data).length },
           "e".data, "9".data⟩]
  ∧ (process ⟨[("a".data, dnet_app_t.init)],
        [(5, ⟨⟨⟨0, 0, 1, 5, [], []⟩, [], ⟨[], true⟩⟩, ⟨false, 0, true⟩⟩)], 1⟩
        ⟨fun _ => (0, 0), fun _ _ => [], false⟩ [2] ⟨[], true⟩
        ⟨0, 3, 6, 5, [], [1]⟩ "a@b".data []).sph.addr = [2] :=
  ⟨(outbound_frame_header_fields).1 _ _ _ _ _ _ _ "svc".data dnet_app_t.init
      (by decide) rfl,
   ((outbound_frame_header_fields).2.1 _ _ "9".data rfl).1,
   ((outbound_frame_header_fields).2.2
      ⟨[("a".data, dnet_app_t.init)],
        [(5, ⟨⟨⟨0, 0, 1, 5, [], []⟩, [], ⟨[], true⟩⟩, ⟨false, 0, true⟩⟩)], 1⟩
      ⟨fun _ => (0, 0), fun _ _ => [], false⟩ [2] ⟨[], true⟩
      ⟨0, 3, 6, 5, [], [1]⟩ "a@b".data [] "a".data "b".data
      ⟨⟨⟨0, 0, 1, 5, [], []⟩, [], ⟨[], true⟩⟩, ⟨false, 0, true⟩⟩
      (by decide) (by decide) (by decide) (by decide) (by decide) (by decide)
      (by decide) rfl).2⟩

/-! ## Claim C2: job-table entries on the EXFULL path -/

/-- C2 (code bug): an SRC_BLOCK user event on a started app inserts the fresh
src_key (here 2) into the Job table before enqueueing; when the runtime's
enqueue or the request-stream write throws, process returns -EXFULL with the
entry still present and no output emitted, and nothing in the catch path
erases it — the removal only ever happens in the FINISH branch or through
complete_job, as the final conjunct shows for the worker-close deleter. -/
theorem job_table_leak_on_enqueue_exception :
    (process ⟨[("calc".data, dnet_app_t.init)], [], 1⟩
        ⟨fun _ => (0, 0), fun _ _ => [], true⟩ [2] ⟨[7], true⟩
        ⟨1, 11, 1, -1, List.replicate 64 0, [9]⟩ "calc@square".data "x".data).ret
      = -EXFULL
  ∧ (alistGet (process ⟨[("calc".data, dnet_app_t.init)], [], 1⟩
        ⟨fun _ => (0, 0), fun _ _ => [], true⟩ [2] ⟨[7], true⟩
        ⟨1, 11, 1, -1, List.replicate 64 0, [9]⟩ "calc@square".data "x".data).st.m_jobs
        2).isSome = true
  ∧ (process ⟨[("calc".data, dnet_app_t.init)], [], 1⟩
        ⟨fun _ => (0, 0), fun _ _ => [], true⟩ [2] ⟨[7], true⟩
        ⟨1, 11, 1, -1, List.replicate 64 0, [9]⟩ "calc@square".data "x".data).out = []
  ∧ (complete_job (process ⟨[("calc".data, dnet_app_t.init)], [], 1⟩
        ⟨fun _ => (0, 0), fun _ _ => [], true⟩ [2] ⟨[7], true⟩
        ⟨1, 11, 1, -1, List.replicate 64 0, [9]⟩ "calc@square".data "x".data).st
        ⟨1, 11, 1, 2, [7], [9]⟩).m_jobs = [] := by
  decide

/-! ## Claim C9: negative client-supplied src_key and sharding -/

/-- C9 counterexample: the claim states that for a negative src_key other
than -1 (with remainder different from -1) the dispatcher enqueues under a
shard index outside the pool's 0..N-1 range; but with pool size 4 and
src_key -4 the truncated remainder is 0, and the request is enqueued on
shard 0, squarely inside the range. -/
theorem negative_src_key_multiple_of_pool_in_range :
    (process ⟨[("a".data, { dnet_app_t.init with m_pool_size := 4 })], [], 1⟩
        ⟨fun _ => (0, 0), fun _ _ => [], false⟩ [2] ⟨[], true⟩
        ⟨0, 3, 0, -4, List.replicate 64 0, []⟩ "a@m".data []).out
      = [POut.enqueued (Queue.sharded "default".data "a".data 0) "m".data
          ⟨⟨0, 3, 0, -4, List.replicate 64 0, []⟩, "a@m".data, []⟩]
  ∧ (0 : Int) ≤ 0 ∧ (0 : Int) < 4 := by
  decide

/-- C9 (amended): for a user event (block or not) with pool size N > 0 and a
negative client-supplied src_key other than -1, get_index returns the C++
truncated remainder src_key tmod N, which is zero or negative (block-mode
requests shard by the SAVED original src_key, before the SRC_BLOCK
overwrite); the dispatcher enqueues unsharded when that remainder is -1, and
otherwise under the shard name built from the remainder — out of the 0..N-1
range when the remainder is strictly negative, but shard 0 (inside the
range) when src_key is a multiple of N. -/
theorem negative_src_key_sharding (st : SrwState) (env : Env) (nodeAddr : List Nat)
    (cmd : Cmd) (sph : Sph) (event payload app ev : List Char) (a : dnet_app_t) (N : Int)
    (hsplit : splitEvent event = some (app, ev))
    (hev1 : ev ≠ "start-task".data) (hev2 : ev ≠ "start-multiple-task".data)
    (hev3 : ev ≠ "stop-task".data) (hev4 : ev ≠ "info".data)
    (hrf : hasFlag sph.flags (DNET_SPH_FLAGS_REPLY ||| DNET_SPH_FLAGS_FINISH) = false)
    (happ : alistGet st.m_map app = some a)
    (hN : a.m_pool_size = N) (hNpos : 0 < N)
    (hk : sph.src_key < 0) (hk1 : sph.src_key ≠ -1)
    (hthrow : env.enqueueThrows = false) :
    (a.get_index sph.src_key).1 = Int.tmod sph.src_key N
  ∧ Int.tmod sph.src_key N ≤ 0
  ∧ (process st env nodeAddr cmd sph event payload).out
      = [POut.enqueued
          (if Int.tmod sph.src_key N = -1 then Queue.plain app
           else Queue.sharded a.m_id app (Int.tmod sph.src_key N))
          ev
          ⟨(if hasFlag sph.flags DNET_SPH_FLAGS_SRC_BLOCK
            then { sph with src_key := Int.ofNat (st.m_src_key + 1), src := cmd.id }
            else sph), event, payload⟩] := by
  have hgen : ∀ b : dnet_app_t, b.m_pool_size = N →
      b.get_index sph.src_key = (Int.tmod sph.src_key N, b) := by
    intro b hb
    rw [dnet_app_t.get_index, if_neg (by omega), if_neg hk1, hb]
  refine ⟨?_, tmod_nonpos_of_neg _ _ hk, ?_⟩
  · rw [hgen a hN]
  · by_cases hsb : hasFlag sph.flags DNET_SPH_FLAGS_SRC_BLOCK <;>
      simp [process, hsplit, hev1, hev2, hev3, hev4, hrf, hsb, happ, hthrow,
        dnet_app_t.update,
        hgen ⟨a.m_pool_size, a.m_sph_index, a.m_id, updateCounters a.m_counters event sph.flags⟩ hN]

/-- C9 witness: a block-mode request with pool size 4 and src_key -2 is
enqueued under shard index -2, sharded by the original src_key even though
the header's src_key has been overwritten with the fresh job key 2. -/
theorem negative_src_key_sharding_witness :
    ((⟨4, 1, "default".data, []⟩ : dnet_app_t).get_index (-2)).1 = Int.tmod (-2) 4
  ∧ Int.tmod (-2 : Int) 4 ≤ 0
  ∧ (process ⟨[("a".data, ⟨4, 1, "default".data, []⟩)], [], 1⟩
        ⟨fun _ => (0, 0), fun _ _ => [], false⟩ [2] ⟨[7], true⟩
        ⟨0, 3, 1, -2, List.replicate 64 0, []⟩ "a@m".data []).out
      = [POut.enqueued
          (if Int.tmod (-2 : Int) 4 = -1 then Queue.plain "a".data
           else Queue.sharded ("default".data) "a".data (Int.tmod (-2 : Int) 4))
          "m".data
          ⟨(if hasFlag (Sph.mk 0 3 1 (-2) (List.replicate 64 0) []).flags
              DNET_SPH_FLAGS_SRC_BLOCK
            then { Sph.mk 0 3 1 (-2) (List.replicate 64 0) [] with
                     src_key := Int.ofNat (1 + 1), src := [7] }
            else Sph.mk 0 3 1 (-2) (List.replicate 64 0) []),
           "a@m".data, []⟩] :=
  negative_src_key_sharding ⟨[("a".data, ⟨4, 1, "default".data, []⟩)], [], 1⟩
    ⟨fun _ => (0, 0), fun _ _ => [], false⟩ [2] ⟨[7], true⟩
    ⟨0, 3, 1, -2, List.replicate 64 0, []⟩ "a@m".data [] "a".data "m".data
    ⟨4, 1, "default".data, []⟩ 4
    (by decide) (by decide) (by decide) (by decide) (by decide) (by decide)
    rfl rfl (by decide) (by decide) (by decide) rfl

end SrwModel
